import Mathlib

/-!
# Verification of `islplot/plotter.py`

A shallow embedding of the rendering layer in `src/islplot/plotter.py`.

The Python module is glue between the `islpy` integer-set library and the
`matplotlib` plotting library.  We model:

* an `islpy` point as its coordinate list (`Point`),
* a bounded `islpy` set, for the purpose of point enumeration, as the finite
  list of its points (`foreach_point` enumerates each distinct point once),
* an `islpy` map as a finite relation, a list of (domain, range) pairs
  (`MapRel`), with the operations the plotter uses (`range`, `domain`,
  `intersect_range`, `intersect_domain`, `apply`, `apply_range`,
  `apply_domain`, `reverse`, `subtract`),
* a basic set handed to `plot_bset_shape` by the data the function actually
  queries: its points, the result of `is_bounded()` and the boundary vertex
  coordinates the geometry library reports (`BasicSet`),
* the matplotlib canvas as a trace of drawing primitives (`DrawOp`); every
  render function returns the trace it emits together with an optional
  Python exception (`Run`), since an exception leaves the primitives drawn
  before it on the canvas,
* the geometry library's convex-hull and vertex-coordinate computations as
  an oracle (`Geom`), since the spec treats them as black boxes.

Python `assert` raises `AssertionError`; out-of-range list indexing in a
comprehension raises `IndexError`; both abort the current call after the
side effects already performed.
-/

namespace Islplot

/-- An `islpy` point, identified with its per-dimension coordinate values. -/
structure Point where
  coords : List Int
deriving DecidableEq, Repr

/-- `islpy` map: a finite relation of (domain element, range element) pairs. -/
structure MapRel where
  pairs : List (Point × Point)
deriving DecidableEq, Repr

/-- `map.range()` as an enumerable set: the distinct range elements. -/
def MapRel.range (m : MapRel) : List Point :=
  (m.pairs.map Prod.snd).dedup

/-- `map.domain()` as an enumerable set: the distinct domain elements. -/
def MapRel.domainPts (m : MapRel) : List Point :=
  (m.pairs.map Prod.fst).dedup

/-- `map.intersect_range(s)`: keep the pairs whose range element lies in `s`. -/
def MapRel.intersect_range (m : MapRel) (s : List Point) : MapRel :=
  ⟨m.pairs.filter (fun pr => pr.2 ∈ s)⟩

/-- `map.intersect_domain(s)`: keep the pairs whose domain element lies in `s`. -/
def MapRel.intersect_domain (m : MapRel) (s : List Point) : MapRel :=
  ⟨m.pairs.filter (fun pr => pr.1 ∈ s)⟩

/-- `map.reverse()`: swap domain and range. -/
def MapRel.reverse (m : MapRel) : MapRel :=
  ⟨m.pairs.map (fun pr => (pr.2, pr.1))⟩

/-- `m.apply_range(t)`: postcompose the range side with `t`. -/
def MapRel.apply_range (m t : MapRel) : MapRel :=
  ⟨m.pairs.flatMap (fun pr =>
     t.pairs.filterMap (fun qr => if qr.1 = pr.2 then some (pr.1, qr.2) else none))⟩

/-- `m.apply_domain(t)`: rewrite the domain side through `t`. -/
def MapRel.apply_domain (m t : MapRel) : MapRel :=
  ⟨m.pairs.flatMap (fun pr =>
     t.pairs.filterMap (fun qr => if qr.1 = pr.1 then some (qr.2, pr.2) else none))⟩

/-- `m1.subtract(m2)`: remove the pairs of `m2` from `m1`. -/
def MapRel.subtract (m1 m2 : MapRel) : MapRel :=
  ⟨m1.pairs.filter (fun pr => pr ∉ m2.pairs)⟩

/-- `set.apply(map)`: the image of the set under the relation. -/
def applySet (s : List Point) (m : MapRel) : List Point :=
  (s.flatMap (fun x =>
     m.pairs.filterMap (fun pr => if pr.1 = x then some pr.2 else none))).dedup

/-- `islpy` set equality (`==` on sets compares the sets of points,
not an enumeration order). -/
def setEq (a b : List Point) : Bool :=
  a.all (· ∈ b) && b.all (· ∈ a)

/-- The data `plot_bset_shape` queries from a basic set: its discrete points,
the answer of `is_bounded()`, and the boundary vertex coordinates the
geometry library reports for it. -/
structure BasicSet where
  pts : List Point
  bounded : Bool
  vertices : List (List Int)
deriving DecidableEq, Repr

/-- An `islpy` set as `plot_set_shapes` consumes it: the answer of
`is_bounded()` and the convex pieces visited by `foreach_basic_set`. -/
structure USet where
  bounded : Bool
  bsets : List BasicSet
deriving DecidableEq, Repr

/-- Oracle for the geometry library's black-box computations: convex hull of
a finite point set, and the boundary vertex coordinates of a convex set. -/
structure Geom where
  convexHull : List Point → List Point
  vertexCoords : List Point → List (List Int)

/-- Matplotlib path codes used by `plot_bset_shape`. -/
inductive PathCode where
  | moveto
  | lineto
  | closepoly
deriving DecidableEq, Repr

/-- One drawing primitive issued to the matplotlib canvas. -/
inductive DrawOp where
  /-- `plt.plot(dimX, dimY, marker, markersize=size, color=color, lw=lw)`;
  `lw = none` when the call omits the line-width argument. -/
  | scatter (dimX dimY : List Int) (marker : String) (size : Int)
      (color : String) (lw : Option Int)
  /-- `plt.annotate("", xy, xytext, arrowprops=...)`: an arrow from `xytext`
  (the tail) to `xy` (the head). -/
  | arrow (xytext xy : List Int) (style : String) (width : Int)
      (color : String) (shrinkA shrinkB : Int)
  /-- `plt.gca().add_patch(PathPatch(Path(...), facecolor))`. -/
  | addPatch (pathdata : List (PathCode × List Int)) (facecolor : String)
  /-- `plt.autoscale(enable=..., tight=...)`. -/
  | autoscale (enable tight : Bool)
  /-- `plt.tight_layout()`. -/
  | tightLayout
deriving DecidableEq, Repr

/-- A Python exception raised by the plotter. -/
inductive PyErr where
  | assertionError (msg : String)
  | indexError
deriving DecidableEq, Repr

/-- The observable outcome of one render call: the drawing primitives issued
(in order) and, if the call raised, the exception.  Primitives drawn before
an exception stay on the canvas. -/
structure Run where
  ops : List DrawOp
  err : Option PyErr
deriving DecidableEq, Repr

/-- Run `r`, and if it did not raise, run `s` after it. -/
def Run.seq (r s : Run) : Run :=
  match r.err with
  | some _ => r
  | none => ⟨r.ops ++ s.ops, s.err⟩

/-- Run a list of calls in order, stopping at the first exception. -/
def runSeq : List Run → Run
  | [] => ⟨[], none⟩
  | r :: rs =>
    match r.err with
    | some _ => r
    | none =>
      let s := runSeq rs
      ⟨r.ops ++ s.ops, s.err⟩

/-- Python list indexing `xs[i]`: raises `IndexError` when out of range. -/
def pyIdx (xs : List Int) (i : Nat) : Except PyErr Int :=
  match xs.get? i with
  | some v => .ok v
  | none => .error .indexError

/-- The comprehension `[x[i] for x in xs]`: collects `x[i]` left to right
and fails at the first list that is too short. -/
def pyCol (xs : List (List Int)) (i : Nat) : Except PyErr (List Int) :=
  match xs with
  | [] => .ok []
  | x :: rest =>
    match pyIdx x i with
    | .error e => .error e
    | .ok v =>
      match pyCol rest i with
      | .error e => .error e
      | .ok l => .ok (v :: l)

/-- Modelled from the spec: `get_point_coordinates` lives in
`islplot/support.py`, which is not among the sources; per §4.1 it returns
the ordered tuple of the point's coordinate values, one per dimension, in
dimension order. -/
def get_point_coordinates (p : Point) : List Int :=
  p.coords

/-- Modelled from the spec: `bset_get_vertex_coordinates` lives in
`islplot/support.py`, which is not among the sources; per §4.5 it returns
the boundary vertex coordinates of the region, computed by the geometry
library, in the order that library provides. -/
def bset_get_vertex_coordinates (bs : BasicSet) : List (List Int) :=
  bs.vertices

/-- `plot_set_points(set_data, color, size, marker)`:
collect the coordinates of every point, take coordinate 0 as `dimX` and
coordinate 1 as `dimY`, and issue one `plt.plot` scatter call with `lw=0`. -/
def plot_set_points (set_data : List Point) (color : String) (size : Int)
    (marker : String) : Run :=
  let points := set_data.map get_point_coordinates
  match pyCol points 0 with
  | .error e => ⟨[], some e⟩
  | .ok dimX =>
    match pyCol points 1 with
    | .error e => ⟨[], some e⟩
    | .ok dimY => ⟨[.scatter dimX dimY marker size color (some 0)], none⟩

/-- `_plot_arrow(start, end, graph, style, width, color)`: one annotate call
with `xytext = start`, `xy = end`, shrink margins 10 at each end. -/
def plot_arrow (start stop : List Int) (style : String) (width : Int)
    (color : String) : Run :=
  ⟨[.arrow start stop style width color 10 10], none⟩

/-- `plot_map(map_data, edge_style, edge_width, color)`:
enumerate the range points; for each range point `start`, restrict the map
to that range point and enumerate the domain points `end` of the
restriction; draw `_plot_arrow(coords(end), coords(start), ...)` for each. -/
def plot_map (map_data : MapRel) (edge_style : String) (edge_width : Int)
    (color : String) : Run :=
  let start_points := map_data.range
  runSeq (start_points.flatMap (fun start =>
    let limited := map_data.intersect_range [start]
    let end_points := limited.domainPts
    end_points.map (fun e =>
      plot_arrow (get_point_coordinates e) (get_point_coordinates start)
        edge_style edge_width color)))

/-- `plot_bset_shape(bset_data, show_vertices, color, vertex_color,
vertex_marker, vertex_size)`:
assert `is_bounded()`; default `vertex_color` to `color`; query the boundary
vertex coordinates; if `show_vertices`, scatter-plot them (coordinates 0 and
1); if there are no vertices, return; otherwise build the closed polygon
path (`MOVETO`, then `LINETO`s, then a `CLOSEPOLY` with dummy vertex
`(0, 0)`) and add the filled patch to the canvas. -/
def plot_bset_shape (bset_data : BasicSet) (show_vertices : Bool)
    (color : String) (vertex_color : Option String) (vertex_marker : String)
    (vertex_size : Int) : Run :=
  if bset_data.bounded then
    let vc := vertex_color.getD color
    let vertices := bset_get_vertex_coordinates bset_data
    let scatterPart : Except PyErr (List DrawOp) :=
      if show_vertices then do
        let dimX ← pyCol vertices 0
        let dimY ← pyCol vertices 1
        pure [.scatter dimX dimY vertex_marker vertex_size vc none]
      else pure []
    match scatterPart with
    | .error e => ⟨[], some e⟩
    | .ok sOps =>
      if vertices.length = 0 then ⟨sOps, none⟩
      else
        let codes := (List.replicate vertices.length PathCode.lineto).set 0
          PathCode.moveto
        let pathdata := codes.zip vertices ++
          [(PathCode.closepoly, ([0, 0] : List Int))]
        ⟨sOps ++ [.addPatch pathdata color], none⟩
  else ⟨[], some (.assertionError "Expected bounded set")⟩

/-- `plot_set_shapes(set_data, *args, **kwargs)`:
assert `is_bounded()`, then run `plot_bset_shape(x, **kwargs)` on every
basic set of the set.  The positional `args` are accepted but never used;
only the keyword options reach `plot_bset_shape`. -/
def plot_set_shapes (set_data : USet) (args : List String)
    (show_vertices : Bool) (color : String) (vertex_color : Option String)
    (vertex_marker : String) (vertex_size : Int) : Run :=
  if set_data.bounded then
    runSeq (set_data.bsets.map (fun x =>
      plot_bset_shape x show_vertices color vertex_color vertex_marker
        vertex_size))
  else ⟨[], some (.assertionError "Expected bounded set")⟩

/-- The group of one range point in `plot_map_as_groups`: restrict the map
to that single range point and take the domain of the restriction. -/
def group_of (bmap : MapRel) (point : Point) : List Point :=
  (bmap.intersect_range [point]).domainPts

/-- The body of the loop in `plot_map_as_groups`, for one range point:
compute the group and its convex hull, `assert (part_set ==
part_set_convex)` (a bare Python assert, no message), then plot the group's
points and its shape.  `G.vertexCoords` supplies the boundary vertices the
geometry library reports for the hull (a bounded basic set, since the group
is finite). -/
def plot_group (G : Geom) (bmap : MapRel) (color vc vertex_marker : String)
    (vertex_size : Int) (point : Point) : Run :=
  let part_set := group_of bmap point
  let part_set_convex := G.convexHull part_set
  if setEq part_set part_set_convex then
    Run.seq (plot_set_points part_set_convex vc vertex_size vertex_marker)
      (plot_bset_shape ⟨part_set_convex, true, G.vertexCoords part_set_convex⟩
        true color (some vc) vertex_marker vertex_size)
  else ⟨[], some (.assertionError "")⟩

/-- `plot_map_as_groups(bmap, color, vertex_color, vertex_marker,
vertex_size)`: default `vertex_color` to `color`, enumerate the range
points, and run the group loop body on each in order. -/
def plot_map_as_groups (G : Geom) (bmap : MapRel) (color : String)
    (vertex_color : Option String) (vertex_marker : String)
    (vertex_size : Int) : Run :=
  let vc := vertex_color.getD color
  let points := bmap.range
  runSeq (points.map (plot_group G bmap color vc vertex_marker vertex_size))

/-- All the integers from `lo` to `hi` inclusive. -/
def intRange (lo hi : Int) : List Int :=
  (List.range (hi + 1 - lo).toNat).map (fun i => lo + (i : Int))

/-- Modelled from the spec: `get_rectangular_hull` lives in
`islplot/support.py`, which is not among the sources; per §4.8 step 3 it is
"a rectangular bounding hull of the (possibly transformed) domain, expanded
by a fixed margin" of `offset` units in each direction.  For the
two-dimensional sets this plotter renders, that is every lattice point of
the bounding box of coordinates 0 and 1, grown by `offset` on every side. -/
def get_rectangular_hull (set_data : List Point) (offset : Int) : List Point :=
  match set_data with
  | [] => []
  | p :: ps =>
    let xs := (p :: ps).map (fun q => q.coords.getD 0 0)
    let ys := (p :: ps).map (fun q => q.coords.getD 1 0)
    let x0 := xs.foldl min (xs.headI) - offset
    let x1 := xs.foldl max (xs.headI) + offset
    let y0 := ys.foldl min (ys.headI) - offset
    let y1 := ys.foldl max (ys.headI) + offset
    (intRange x0 x1).flatMap (fun x =>
      (intRange y0 y1).map (fun y => Point.mk [x, y]))

/-- The dependence relation `plot_domain` hands to `plot_map`: the given
dependences restricted on the range side and then on the domain side to the
domain set, and, when a tiling is given, minus
`tiling.apply_range(tiling.reverse())` (the pairs whose endpoints share a
tile id). -/
def processed_deps (domain : List Point) (dep : MapRel)
    (tiling : Option MapRel) : MapRel :=
  let dep := (dep.intersect_range domain).intersect_domain domain
  match tiling with
  | some t => dep.subtract (t.apply_range t.reverse)
  | none => dep

/-- `plot_domain(domain, dependences, tiling, space, tile_color,
vertex_color, vertex_size, vertex_marker, background)`:
configure the canvas (`autoscale`, `tight_layout`); if `space` is given,
apply it to the domain, to the range then domain side of the dependences,
and to the domain side of the tiling; compute the rectangular hull with
margin 1; if `background`, plot the hull points in light gray; plot the
domain points; if dependences are given, process them (`processed_deps`)
and render them with `plot_map(..., color="gray")`; if a tiling is given,
restrict it to the domain and render it with `plot_map_as_groups`. -/
def plot_domain (G : Geom) (domain : List Point)
    (dependences : Option MapRel) (tiling : Option MapRel)
    (space : Option MapRel) (tile_color : String) (vertex_color : String)
    (vertex_size : Int) (vertex_marker : String) (background : Bool) : Run :=
  let cfg : Run := ⟨[.autoscale true true, .tightLayout], none⟩
  let domain := match space with
    | some sp => applySet domain sp
    | none => domain
  let dependences := match space with
    | some sp => dependences.map (fun dep =>
        (dep.apply_range sp).apply_domain sp)
    | none => dependences
  let tiling := match space with
    | some sp => tiling.map (fun t => t.apply_domain sp)
    | none => tiling
  let hull := get_rectangular_hull domain 1
  let bg : Run := if background then
      plot_set_points hull "lightgray" vertex_size vertex_marker
    else ⟨[], none⟩
  let dom : Run := plot_set_points domain vertex_color vertex_size
    vertex_marker
  let depRun : Run := match dependences with
    | none => ⟨[], none⟩
    | some dep => plot_map (processed_deps domain dep tiling) "->" 1 "gray"
  let tileRun : Run := match tiling with
    | none => ⟨[], none⟩
    | some t => plot_map_as_groups G (t.intersect_domain domain) tile_color
        (some vertex_color) vertex_marker vertex_size
  Run.seq cfg (Run.seq bg (Run.seq dom (Run.seq depRun tileRun)))

/-! ## Theorems -/

/-- C1, counterexample: for the map with exactly the pair
a = (0, 0) → b = (1, 1), `plot_map` draws exactly one arrow whose tail
(`xytext`) is a's coordinates (0, 0) and whose head (`xy`) is b's
coordinates (1, 1) — not, as claimed, tail at b and head at a. -/
theorem plot_map_single_pair_not_range_to_domain :
    (plot_map ⟨[(⟨[0, 0]⟩, ⟨[1, 1]⟩)]⟩ "->" 1 "black").ops =
      [.arrow [0, 0] [1, 1] "->" 1 "black" 10 10] ∧
    (plot_map ⟨[(⟨[0, 0]⟩, ⟨[1, 1]⟩)]⟩ "->" 1 "black").ops ≠
      [.arrow [1, 1] [0, 0] "->" 1 "black" 10 10] := by
  constructor
  · decide
  · decide

/-- C1, amended: for every map containing exactly one relation pair
(a → b), `plot_map` draws exactly one arrow whose tail is at a's
coordinates (the domain point) and whose head is at b's coordinates (the
range point): arrows run domain-to-range. -/
theorem plot_map_single_pair_domain_to_range (a b : Point) (s : String)
    (w : Int) (c : String) :
    plot_map ⟨[(a, b)]⟩ s w c =
      ⟨[.arrow a.coords b.coords s w c 10 10], none⟩ := by
  simp [plot_map, MapRel.range, MapRel.intersect_range, MapRel.domainPts,
    plot_arrow, runSeq, get_point_coordinates, List.dedup_cons_of_not_mem]

/-- C2: on an unbounded basic set, `plot_bset_shape` raises the
`"Expected bounded set"` assertion, draws nothing, and its outcome does not
depend on the set's vertex data at all — the vertex-coordinate query is
unreachable. -/
theorem plot_bset_shape_unbounded_asserts (bs : BasicSet) (sv : Bool)
    (c : String) (vcol : Option String) (vm : String) (vsz : Int)
    (h : bs.bounded = false) :
    plot_bset_shape bs sv c vcol vm vsz =
      ⟨[], some (.assertionError "Expected bounded set")⟩ := by
  simp [plot_bset_shape, h]

/-- Witness for C2: a concrete unbounded basic set, with nonempty vertex
data, on which `plot_bset_shape` asserts without drawing. -/
theorem plot_bset_shape_unbounded_asserts_witness :
    (BasicSet.mk [] false [[0, 0], [2, 5]]).bounded = false ∧
    plot_bset_shape (BasicSet.mk [] false [[0, 0], [2, 5]]) true "gray" none
        "o" 10 =
      ⟨[], some (.assertionError "Expected bounded set")⟩ :=
  ⟨rfl, plot_bset_shape_unbounded_asserts _ _ _ _ _ _ rfl⟩

/-- C3: on a bounded basic set whose vertex list is empty,
`plot_bset_shape` performs the requested vertex scatter (an empty scatter,
when `show_vertices` is set) and returns with no exception and no polygon
patch on the canvas. -/
theorem plot_bset_shape_no_vertices_no_polygon (bs : BasicSet) (sv : Bool)
    (c : String) (vcol : Option String) (vm : String) (vsz : Int)
    (hb : bs.bounded = true) (hv : bs.vertices = []) :
    plot_bset_shape bs sv c vcol vm vsz =
      ⟨if sv then [.scatter [] [] vm vsz (vcol.getD c) none] else [],
        none⟩ := by
  cases sv <;> cases vcol <;>
      simp [plot_bset_shape, hb, bset_get_vertex_coordinates, hv, pyCol] <;>
    rfl

/-- Witness for C3: a concrete bounded basic set with no vertices, plotted
with `show_vertices` on: only the vertex scatter is issued, no patch. -/
theorem plot_bset_shape_no_vertices_no_polygon_witness :
    (BasicSet.mk [] true []).bounded = true ∧
    (BasicSet.mk [] true []).vertices = [] ∧
    plot_bset_shape (BasicSet.mk [] true []) true "gray" none "o" 10 =
      ⟨[.scatter [] [] "o" 10 "gray" none], none⟩ :=
  ⟨rfl, rfl, plot_bset_shape_no_vertices_no_polygon _ true _ _ _ _ rfl rfl⟩

/-- `pyIdx` succeeds on an in-range index with the indexed element. -/
theorem pyIdx_ok (x : List Int) (i : Nat) (h : i < x.length) :
    pyIdx x i = .ok (x.getD i 0) := by
  simp [pyIdx, List.getD_eq_getElem?_getD, List.get?_eq_getElem?,
    List.getElem?_eq_getElem h]

/-- `pyIdx` raises `IndexError` on an out-of-range index. -/
theorem pyIdx_err (x : List Int) (i : Nat) (h : x.length ≤ i) :
    pyIdx x i = .error .indexError := by
  simp [pyIdx, List.get?_eq_getElem?, List.getElem?_eq_none h]

/-- When every list is long enough, the comprehension collects column `i`. -/
theorem pyCol_ok_of_lt (xs : List (List Int)) (i : Nat)
    (h : ∀ x ∈ xs, i < x.length) :
    pyCol xs i = .ok (xs.map (fun x => x.getD i 0)) := by
  induction xs with
  | nil => rfl
  | cons x rest ih =>
    have hx : pyIdx x i = .ok (x.getD i 0) := pyIdx_ok x i (h x (by simp))
    have hrest := ih (fun y hy => h y (by simp [hy]))
    simp [pyCol, hx, hrest]

/-- When the first list is too short, the comprehension raises
`IndexError`. -/
theorem pyCol_cons_err (x : List Int) (xs : List (List Int)) (i : Nat)
    (h : x.length ≤ i) :
    pyCol (x :: xs) i = .error .indexError := by
  simp [pyCol, pyIdx_err x i h]

/-- The comprehension either raises `IndexError` or succeeds. -/
theorem pyCol_err_or_ok (xs : List (List Int)) (i : Nat) :
    pyCol xs i = .error .indexError ∨ ∃ l, pyCol xs i = .ok l := by
  induction xs with
  | nil => exact Or.inr ⟨[], rfl⟩
  | cons x rest ih =>
    by_cases hx : i < x.length
    · rcases ih with h | ⟨l, hl⟩
      · left
        simp [pyCol, pyIdx_ok x i hx, h]
      · right
        exact ⟨x.getD i 0 :: l, by simp [pyCol, pyIdx_ok x i hx, hl]⟩
    · exact Or.inl (pyCol_cons_err x rest i (by omega))

/-- On a set whose points all have at least two coordinates,
`plot_set_points` issues exactly one scatter of coordinates 0 and 1. -/
theorem plot_set_points_ok (s : List Point) (c : String) (sz : Int)
    (m : String) (h : ∀ p ∈ s, 2 ≤ p.coords.length) :
    plot_set_points s c sz m =
      ⟨[.scatter (s.map (fun p => p.coords.getD 0 0))
          (s.map (fun p => p.coords.getD 1 0)) m sz c (some 0)], none⟩ := by
  have hlen : ∀ x ∈ s.map get_point_coordinates, 1 < x.length := by
    intro x hx
    simp only [List.mem_map, get_point_coordinates] at hx
    obtain ⟨p, hp, rfl⟩ := hx
    have := h p hp
    omega
  have h0 := pyCol_ok_of_lt (s.map get_point_coordinates) 0
    (fun x hx => by have := hlen x hx; omega)
  have h1 := pyCol_ok_of_lt (s.map get_point_coordinates) 1 hlen
  simp [plot_set_points, h0, h1, List.map_map, Function.comp,
    get_point_coordinates]

/-- C9: `plot_set_points` uses only coordinates 0 and 1 of each point —
on a set whose points all have at least two dimensions it scatters exactly
those two coordinates, silently dropping the higher ones; and on a
non-empty set whose points have fewer than two dimensions it raises
`IndexError` (not an assertion) having drawn nothing. -/
theorem plot_set_points_uses_first_two_coords (s : List Point) (c : String)
    (sz : Int) (m : String) :
    ((∀ p ∈ s, 2 ≤ p.coords.length) →
      plot_set_points s c sz m =
        ⟨[.scatter (s.map (fun p => p.coords.getD 0 0))
            (s.map (fun p => p.coords.getD 1 0)) m sz c (some 0)],
          none⟩) ∧
    (s ≠ [] → (∀ p ∈ s, p.coords.length < 2) →
      plot_set_points s c sz m = ⟨[], some .indexError⟩) := by
  refine ⟨plot_set_points_ok s c sz m, ?_⟩
  intro hne hlt
  match s with
  | [] => exact absurd rfl hne
  | p :: rest =>
    have hp := hlt p (by simp)
    rcases pyCol_err_or_ok ((p :: rest).map get_point_coordinates) 0 with
      h0 | ⟨l, h0⟩
    · simp only [List.map_cons] at h0
      simp [plot_set_points, h0]
    · have h1 : pyCol (get_point_coordinates p ::
          rest.map get_point_coordinates) 1 = .error .indexError :=
        pyCol_cons_err _ _ _ (by simp [get_point_coordinates]; omega)
      simp only [List.map_cons] at h0
      simp [plot_set_points, h0, h1]

/-- Witness for C9: a one-point three-dimensional set scatters coordinates
(3, 4) and drops 5; a one-point one-dimensional set raises `IndexError`. -/
theorem plot_set_points_uses_first_two_coords_witness :
    plot_set_points [⟨[3, 4, 5]⟩] "black" 10 "o" =
      ⟨[.scatter [3] [4] "o" 10 "black" (some 0)], none⟩ ∧
    plot_set_points [⟨[3]⟩] "black" 10 "o" = ⟨[], some .indexError⟩ := by
  constructor
  · simpa using
      (plot_set_points_uses_first_two_coords [⟨[3, 4, 5]⟩] "black" 10
        "o").1 (by decide)
  · exact (plot_set_points_uses_first_two_coords [⟨[3]⟩] "black" 10 "o").2
      (by decide) (by decide)

/-- C10: `plot_set_shapes` accepts positional arguments after the set but
never uses them — the outcome is the same for any two positional argument
lists — and on a bounded set it runs `plot_bset_shape` on every basic set
with exactly the keyword style options. -/
theorem plot_set_shapes_ignores_positional_args (sd : USet)
    (args1 args2 : List String) (sv : Bool) (c : String)
    (vcol : Option String) (vm : String) (vsz : Int) :
    plot_set_shapes sd args1 sv c vcol vm vsz =
      plot_set_shapes sd args2 sv c vcol vm vsz ∧
    (sd.bounded = true →
      plot_set_shapes sd args1 sv c vcol vm vsz =
        runSeq (sd.bsets.map (fun x =>
          plot_bset_shape x sv c vcol vm vsz))) :=
  ⟨rfl, fun h => by simp [plot_set_shapes, h]⟩

/-- Witness for C10: on a concrete bounded one-piece set, passing the
positional arguments `["red", "5"]` changes nothing, and the keyword
options reach `plot_bset_shape`. -/
theorem plot_set_shapes_ignores_positional_args_witness :
    plot_set_shapes ⟨true, [⟨[], true, []⟩]⟩ ["red", "5"] true "gray" none
        "o" 10 =
      plot_set_shapes ⟨true, [⟨[], true, []⟩]⟩ [] true "gray" none "o"
        10 ∧
    plot_set_shapes ⟨true, [⟨[], true, []⟩]⟩ ["red", "5"] true "gray" none
        "o" 10 =
      runSeq [plot_bset_shape ⟨[], true, []⟩ true "gray" none "o" 10] :=
  ⟨(plot_set_shapes_ignores_positional_args ⟨true, [⟨[], true, []⟩]⟩
      ["red", "5"] [] true "gray" none "o" 10).1,
   (plot_set_shapes_ignores_positional_args ⟨true, [⟨[], true, []⟩]⟩
      ["red", "5"] [] true "gray" none "o" 10).2 rfl⟩

/-- When every run in the first block succeeds, a sequenced run splits into
the first block's primitives followed by the rest. -/
theorem runSeq_append_ok (l1 l2 : List Run)
    (h : ∀ r ∈ l1, r.err = none) :
    runSeq (l1 ++ l2) =
      ⟨l1.flatMap Run.ops ++ (runSeq l2).ops, (runSeq l2).err⟩ := by
  induction l1 with
  | nil => simp [runSeq]
  | cons r rs ih =>
    have hr := h r (by simp)
    have := ih (fun x hx => h x (by simp [hx]))
    simp [runSeq, hr, this]

/-- A group that differs from its own convex hull makes the group loop body
raise the bare assertion, rendering nothing for that group. -/
theorem plot_group_nonconvex (G : Geom) (bmap : MapRel) (c vc vm : String)
    (vsz : Int) (p : Point)
    (hbad : setEq (group_of bmap p) (G.convexHull (group_of bmap p)) =
      false) :
    plot_group G bmap c vc vm vsz p = ⟨[], some (.assertionError "")⟩ := by
  simp [plot_group, hbad]

/-- C4: in `plot_map_as_groups`, each group (the domain of the map
restricted to one range point) is compared with its convex hull; at the
first group that is not equal to its hull — the earlier groups having
rendered without error — the call raises the hard assertion, keeps only the
primitives of the earlier groups, and never renders the non-convex group. -/
theorem plot_map_as_groups_nonconvex_asserts (G : Geom) (bmap : MapRel)
    (c : String) (vcol : Option String) (vm : String) (vsz : Int)
    (pre : List Point) (p : Point) (post : List Point)
    (hrange : bmap.range = pre ++ p :: post)
    (hpre : ∀ q ∈ pre,
      (plot_group G bmap c (vcol.getD c) vm vsz q).err = none)
    (hbad : setEq (group_of bmap p) (G.convexHull (group_of bmap p)) =
      false) :
    plot_map_as_groups G bmap c vcol vm vsz =
      ⟨(pre.map (plot_group G bmap c (vcol.getD c) vm vsz)).flatMap
          Run.ops,
        some (.assertionError "")⟩ := by
  have hmap : ∀ r ∈ pre.map (plot_group G bmap c (vcol.getD c) vm vsz),
      r.err = none := by
    intro r hr
    obtain ⟨q, hq, rfl⟩ := List.mem_map.mp hr
    exact hpre q hq
  have hsplit := runSeq_append_ok
    (pre.map (plot_group G bmap c (vcol.getD c) vm vsz))
    ((p :: post).map (plot_group G bmap c (vcol.getD c) vm vsz)) hmap
  have hfirst : runSeq ((p :: post).map
      (plot_group G bmap c (vcol.getD c) vm vsz)) =
      ⟨[], some (.assertionError "")⟩ := by
    simp [runSeq, plot_group_nonconvex G bmap c (vcol.getD c) vm vsz p hbad]
  simp only [plot_map_as_groups, hrange, List.map_append]
  rw [hsplit, hfirst]
  simp

/-- Witness for C4: the one-pair map (0, 0) → (7) with a hull oracle that
adds the point (9, 9) to every hull, so the only group is not equal to its
hull; the call asserts and draws nothing. -/
theorem plot_map_as_groups_nonconvex_asserts_witness :
    (MapRel.mk [(⟨[0, 0]⟩, ⟨[7]⟩)]).range = [] ++ ⟨[7]⟩ :: [] ∧
    setEq (group_of (MapRel.mk [(⟨[0, 0]⟩, ⟨[7]⟩)]) ⟨[7]⟩)
      ((Geom.mk (fun s => ⟨[9, 9]⟩ :: s) (fun _ => [])).convexHull
        (group_of (MapRel.mk [(⟨[0, 0]⟩, ⟨[7]⟩)]) ⟨[7]⟩)) = false ∧
    plot_map_as_groups (Geom.mk (fun s => ⟨[9, 9]⟩ :: s) (fun _ => []))
        (MapRel.mk [(⟨[0, 0]⟩, ⟨[7]⟩)]) "gray" none "o" 10 =
      ⟨[], some (.assertionError "")⟩ :=
  ⟨by decide, rfl,
   plot_map_as_groups_nonconvex_asserts
     (Geom.mk (fun s => ⟨[9, 9]⟩ :: s) (fun _ => []))
     (MapRel.mk [(⟨[0, 0]⟩, ⟨[7]⟩)]) "gray" none "o" 10 [] ⟨[7]⟩ []
     (by decide) (fun q hq => absurd hq (List.not_mem_nil q)) rfl⟩

/-- Every point of the rectangular hull has exactly two coordinates. -/
theorem hull_mem_len (s : List Point) (off : Int) (q : Point)
    (hq : q ∈ get_rectangular_hull s off) : q.coords.length = 2 := by
  cases s with
  | nil => simp [get_rectangular_hull] at hq
  | cons p ps =>
    simp only [get_rectangular_hull, List.mem_flatMap, List.mem_map] at hq
    obtain ⟨x, hx, y, hy, rfl⟩ := hq
    rfl

/-- C5: `plot_domain` with background on and no dependences, no tiling and
no transform issues, after the two cosmetic canvas-configuration calls,
exactly two point-plotting operations in order — the 1-expanded rectangular
hull's points in light gray, then the domain's points in the foreground
vertex style — and nothing else, with no exception. -/
theorem plot_domain_background_two_scatters (G : Geom)
    (domain : List Point) (tc vc : String) (vsz : Int) (vm : String)
    (h : ∀ p ∈ domain, 2 ≤ p.coords.length) :
    plot_domain G domain none none none tc vc vsz vm true =
      ⟨[.autoscale true true, .tightLayout,
        .scatter
          ((get_rectangular_hull domain 1).map (fun p => p.coords.getD 0 0))
          ((get_rectangular_hull domain 1).map (fun p => p.coords.getD 1 0))
          vm vsz "lightgray" (some 0),
        .scatter (domain.map (fun p => p.coords.getD 0 0))
          (domain.map (fun p => p.coords.getD 1 0)) vm vsz vc (some 0)],
        none⟩ := by
  have hhull : ∀ p ∈ get_rectangular_hull domain 1, 2 ≤ p.coords.length :=
    fun p hp => le_of_eq (hull_mem_len domain 1 p hp).symm
  have h1 := plot_set_points_ok (get_rectangular_hull domain 1) "lightgray"
    vsz vm hhull
  have h2 := plot_set_points_ok domain vc vsz vm h
  simp [plot_domain, h1, h2, Run.seq]

/-- Witness for C5: for the one-point domain (0, 0), the hull is the nine
lattice points of the square from (-1, -1) to (1, 1); they are scattered in
light gray, then the domain point in black, and nothing else. -/
theorem plot_domain_background_two_scatters_witness :
    plot_domain (Geom.mk id (fun _ => [])) [⟨[0, 0]⟩] none none none "blue"
        "black" 10 "o" true =
      ⟨[.autoscale true true, .tightLayout,
        .scatter [-1, -1, -1, 0, 0, 0, 1, 1, 1]
          [-1, 0, 1, -1, 0, 1, -1, 0, 1] "o" 10 "lightgray" (some 0),
        .scatter [0] [0] "o" 10 "black" (some 0)], none⟩ := by
  rw [plot_domain_background_two_scatters (Geom.mk id (fun _ => []))
    [⟨[0, 0]⟩] "blue" "black" 10 "o" (by decide)]
  decide

/-- C6: with a coordinate-transform map given, `plot_domain` behaves
exactly as the untransformed call on the transformed data: the transform is
applied to the domain, to the range side and then the domain side of the
dependence map when present, and to the domain side of the tiling map when
present, before the hull computation and all rendering. -/
theorem plot_domain_applies_space_first (G : Geom) (domain : List Point)
    (dep tiling : Option MapRel) (sp : MapRel) (tc vc : String) (vsz : Int)
    (vm : String) (bg : Bool) :
    plot_domain G domain dep tiling (some sp) tc vc vsz vm bg =
      plot_domain G (applySet domain sp)
        (dep.map (fun d => (d.apply_range sp).apply_domain sp))
        (tiling.map (fun t => t.apply_domain sp)) none tc vc vsz vm bg := by
  cases dep <;> cases tiling <;> rfl

/-- Two endpoints of a pair lie in the same tile exactly when the pair is
in `tiling.apply_range(tiling.reverse())`. -/
theorem same_tile_mem (t : MapRel) (a b : Point) :
    (a, b) ∈ (t.apply_range t.reverse).pairs ↔
      ∃ tid, (a, tid) ∈ t.pairs ∧ (b, tid) ∈ t.pairs := by
  simp only [MapRel.apply_range, MapRel.reverse, List.mem_flatMap,
    List.mem_filterMap, List.mem_map]
  constructor
  · rintro ⟨⟨a', tid⟩, hpr, qr, ⟨⟨b', tid'⟩, hrr, hqr⟩, hif⟩
    subst hqr
    by_cases he : tid' = tid
    · subst he
      simp only [if_pos rfl, reduceIte, Option.some.injEq,
        Prod.mk.injEq] at hif
      obtain ⟨rfl, rfl⟩ := hif
      exact ⟨tid', hpr, hrr⟩
    · simp [he] at hif
  · rintro ⟨tid, ha, hb⟩
    refine ⟨(a, tid), ha, (tid, b), ⟨(b, tid), hb, rfl⟩, ?_⟩
    simp

/-- C7: the dependence relation `plot_domain` renders (`processed_deps`)
contains a pair (a, b) exactly when the pair is a given dependence whose
range endpoint b and domain endpoint a both lie in the domain and — when a
tiling is given — whose endpoints do not map to a common tile id; without a
tiling only the two domain restrictions apply. -/
theorem plot_domain_dependence_filtering (domain : List Point)
    (dep : MapRel) (t : MapRel) (a b : Point) :
    ((a, b) ∈ (processed_deps domain dep (some t)).pairs ↔
      ((a, b) ∈ dep.pairs ∧ b ∈ domain ∧ a ∈ domain ∧
        ¬ ∃ tid, (a, tid) ∈ t.pairs ∧ (b, tid) ∈ t.pairs)) ∧
    ((a, b) ∈ (processed_deps domain dep none).pairs ↔
      ((a, b) ∈ dep.pairs ∧ b ∈ domain ∧ a ∈ domain)) := by
  constructor
  · simp only [processed_deps, MapRel.subtract, MapRel.intersect_domain,
      MapRel.intersect_range, List.mem_filter, decide_eq_true_eq,
      same_tile_mem]
    tauto
  · simp only [processed_deps, MapRel.intersect_domain,
      MapRel.intersect_range, List.mem_filter, decide_eq_true_eq]
    tauto

/-- Running a render call on a canvas appends its primitives to the canvas. -/
def drawOn (canvas : List DrawOp) (r : Run) : List DrawOp :=
  canvas ++ r.ops

/-- C8: every render function is deterministic — with identical inputs and
style options, two calls on fresh canvases leave identical primitive
sequences, and the primitives appended to any canvas are those of the fresh
run; the functions read no state besides their arguments. -/
theorem render_functions_deterministic (G : Geom) (s : List Point)
    (c cs : String) (sz : Int) (m : String) (mp : MapRel) (es : String)
    (ew : Int) (bs : BasicSet) (sv : Bool) (vcol : Option String)
    (vsz : Int) (sd : USet) (args : List String) (domain : List Point)
    (dep til spc : Option MapRel) (tc vc : String) (bg : Bool)
    (canvas : List DrawOp) :
    drawOn [] (plot_set_points s c sz m) =
      drawOn [] (plot_set_points s c sz m) ∧
    drawOn [] (plot_map mp es ew c) = drawOn [] (plot_map mp es ew c) ∧
    drawOn [] (plot_bset_shape bs sv c vcol m vsz) =
      drawOn [] (plot_bset_shape bs sv c vcol m vsz) ∧
    drawOn [] (plot_set_shapes sd args sv c vcol m vsz) =
      drawOn [] (plot_set_shapes sd args sv c vcol m vsz) ∧
    drawOn [] (plot_map_as_groups G mp cs vcol m vsz) =
      drawOn [] (plot_map_as_groups G mp cs vcol m vsz) ∧
    drawOn [] (plot_domain G domain dep til spc tc vc vsz m bg) =
      drawOn [] (plot_domain G domain dep til spc tc vc vsz m bg) ∧
    drawOn canvas (plot_domain G domain dep til spc tc vc vsz m bg) =
      canvas ++
        drawOn [] (plot_domain G domain dep til spc tc vc vsz m bg) := by
  refine ⟨rfl, rfl, rfl, rfl, rfl, rfl, ?_⟩
  simp [drawOn]

end Islplot
